import Mathlib

/-!
Verification development for the TOON codec (tooner repository).

This file shallowly embeds the decoder (`src/core/decoder.ts`) and the
string utilities (`src/utils/string.ts`, the revision containing `parseKey`
and the validating `unescapeString`, which is the one the decoder imports)
into Lean.  JavaScript strings are modelled as `List Char`; JavaScript
numbers produced by `Number(...)` on decimal lexemes are modelled exactly as
rationals (IEEE-754 rounding is not modelled; the negative-zero flag, which
JavaScript tracks via `Object.is(num, -0)`, is modelled by the sign of the
lexeme together with a zero mantissa).  Exceptions are modelled with
`Except`; the mutually recursive line parsers are made total with an
explicit fuel parameter (`decode` supplies more fuel than any input can
consume, and running out of fuel is a distinguished error that faithful
runs never reach).
-/

set_option maxRecDepth 8000

deriving instance DecidableEq for Except

namespace Tooner

/-- JavaScript strings as lists of characters. -/
abbrev Chars := List Char

/-- Left brace character, kept out of literals. -/
def lbrace : Char := Char.ofNat 123

/-- Right brace character, kept out of literals. -/
def rbrace : Char := Char.ofNat 125

/-- The JavaScript whitespace class (regex `\s`, also the set removed by
`String.prototype.trim`). -/
def jsWhitespace (c : Char) : Bool :=
  c == ' ' || c == '\t' || c == '\n' || c == '\r' ||
  c.val == 11 || c.val == 12 || c.val == 0xa0 || c.val == 0x1680 ||
  (0x2000 ≤ c.val && c.val ≤ 0x200a) || c.val == 0x2028 || c.val == 0x2029 ||
  c.val == 0x202f || c.val == 0x205f || c.val == 0x3000 || c.val == 0xfeff

/-- JavaScript `String.prototype.trim`. -/
def jsTrim (s : Chars) : Chars :=
  ((s.dropWhile jsWhitespace).reverse.dropWhile jsWhitespace).reverse

/-- Regex `\d`. -/
def isDigit (c : Char) : Bool := 48 ≤ c.val && c.val ≤ 57

/-- Regex `[a-zA-Z]`. -/
def isAlpha (c : Char) : Bool :=
  (65 ≤ c.val && c.val ≤ 90) || (97 ≤ c.val && c.val ≤ 122)

/-- Regex `\w`. -/
def isWordChar (c : Char) : Bool := isAlpha c || isDigit c || c == '_'

/-- The character class `[\w.-]` used for unquoted keys. -/
def isKeyChar (c : Char) : Bool := isWordChar c || c == '.' || c == '-'

/-- JavaScript `String.prototype.includes` for a single character. -/
def containsChar (s : Chars) (c : Char) : Bool := s.any (fun x => x == c)

/-- JavaScript `String.prototype.startsWith` for a single character. -/
def startsWithChar (s : Chars) (c : Char) : Bool :=
  match s with
  | x :: _ => x == c
  | [] => false

/-- JavaScript `String.prototype.endsWith` for a single character. -/
def endsWithChar (s : Chars) (c : Char) : Bool :=
  match s.getLast? with
  | some x => x == c
  | none => false

/-- JavaScript `String.prototype.split` on a single separator character. -/
def jsSplit (s : Chars) (sep : Char) : List Chars :=
  match s with
  | [] => [[]]
  | c :: rest =>
    let r := jsSplit rest sep
    if c == sep then [] :: r
    else
      match r with
      | h :: t => (c :: h) :: t
      | [] => [[c]]

/-- Numeric value of a digit string. -/
def digitsVal (ds : Chars) : Nat :=
  ds.foldl (fun a c => a * 10 + (c.toNat - 48)) 0

/-- JavaScript `parseInt(str, 10)`; `none` models `NaN`. -/
def jsParseInt (s : Chars) : Option Int :=
  let t := s.dropWhile jsWhitespace
  let p : Bool × Chars :=
    match t with
    | c :: r =>
      if c == '-' then (true, r) else if c == '+' then (false, r) else (false, t)
    | [] => (false, t)
  let ds := p.2.takeWhile isDigit
  if ds.isEmpty then none
  else if p.1 then some (-(digitsVal ds : Int)) else some (digitsVal ds : Int)

/-- How JavaScript string interpolation prints the numbers we model
(`none` is `NaN`). -/
def intOptRepr : Option Int → String
  | none => "NaN"
  | some n => toString n

/-- A thrown JavaScript error: `ToonDecodeError(message, line)` carries its
line argument verbatim in `line`; a plain `Error` (thrown by
`unescapeString`) has `line = none`. -/
structure Err where
  message : String
  line : Option Nat
  deriving DecidableEq, Repr

/-- Decoder option `expandPaths`. -/
inductive ExpandMode where
  | off
  | safe
  deriving DecidableEq, Repr

/-- The options record handed to `decode` (all fields optional). -/
structure OptsIn where
  strict : Option Bool := none
  indent : Option Int := none
  expandPaths : Option ExpandMode := none

/-- Normalized decode options. -/
structure Opts where
  strict : Bool
  indent : Int
  expandPaths : ExpandMode

/-- Option normalization performed at the top of `decode`. -/
def normOpts (o : OptsIn) : Opts :=
  ⟨o.strict.getD false, o.indent.getD 2, o.expandPaths.getD .off⟩

mutual
/-- The decoded value tree (`ToonValue`). -/
inductive ToonValue where
  | null
  | bool (b : Bool)
  | num (q : ℚ)
  | str (s : Chars)
  | arr (xs : ToonList)
  | obj (fs : ToonFields)
  deriving DecidableEq, Repr

/-- Arrays of `ToonValue` (a separate inductive so equality is derivable). -/
inductive ToonList where
  | nil
  | cons (v : ToonValue) (t : ToonList)
  deriving DecidableEq, Repr

/-- Ordered object fields. -/
inductive ToonFields where
  | nil
  | cons (k : Chars) (v : ToonValue) (t : ToonFields)
  deriving DecidableEq, Repr
end

/-- Pack a Lean list into a `ToonList`. -/
def ToonList.ofList : List ToonValue → ToonList
  | [] => .nil
  | v :: r => .cons v (ToonList.ofList r)

/-- Pack an association list into `ToonFields`. -/
def ToonFields.ofList : List (Chars × ToonValue) → ToonFields
  | [] => .nil
  | (k, v) :: r => .cons k v (ToonFields.ofList r)

/-- Unpack `ToonFields` into an association list. -/
def ToonFields.toList : ToonFields → List (Chars × ToonValue)
  | .nil => []
  | .cons k v r => (k, v) :: ToonFields.toList r

/-- Lookup in a JavaScript object / `Map` modelled as an ordered
association list. -/
def alGet {α : Type} (l : List (Chars × α)) (k : Chars) : Option α :=
  match l with
  | [] => none
  | (k2, v) :: r => if k2 = k then some v else alGet r k

/-- JavaScript assignment `obj[k] = v` (and `Map.set`): update in place,
preserving position, else append. -/
def alSet {α : Type} (l : List (Chars × α)) (k : Chars) (v : α) :
    List (Chars × α) :=
  match l with
  | [] => [(k, v)]
  | (k2, v2) :: r => if k2 = k then (k2, v) :: r else (k2, v2) :: alSet r k v

/-! ## String utilities (`src/utils/string.ts`) -/

/-- One global single-character replacement, `str.replace(/t/g, r)`. -/
def escRepl (t : Char) (r : Chars) (s : Chars) : Chars :=
  s.flatMap (fun c => if c == t then r else [c])

/-- `escapeString`: the five sequential global replacements, backslash
first. -/
def escapeString (s : Chars) : Chars :=
  escRepl '\t' ['\\', 't']
    (escRepl '\r' ['\\', 'r']
      (escRepl '\n' ['\\', 'n']
        (escRepl '"' ['\\', '"']
          (escRepl '\\' ['\\', '\\'] s))))

/-- `unescapeString(str, lineIndex?)`: the validating scanner.  An invalid
escape throws (a plain `Error`, line `none` in our model) only when a line
index was supplied; otherwise the backslash is kept and scanning resumes at
the next character.  A trailing backslash is always kept. -/
def unescapeString : Chars → Option Nat → Except Err Chars
  | [], _ => .ok []
  | c :: rest, li =>
    if c = '\\' then
      match rest with
      | c2 :: rest2 =>
        if c2 = 'n' then (fun r => '\n' :: r) <$> unescapeString rest2 li
        else if c2 = 'r' then (fun r => '\r' :: r) <$> unescapeString rest2 li
        else if c2 = 't' then (fun r => '\t' :: r) <$> unescapeString rest2 li
        else if c2 = '"' then (fun r => '"' :: r) <$> unescapeString rest2 li
        else if c2 = '\\' then (fun r => '\\' :: r) <$> unescapeString rest2 li
        else
          match li with
          | some l =>
            .error ⟨"Invalid escape sequence: \\" ++ String.mk [c2] ++
              " at line " ++ toString (l + 1), none⟩
          | none => (fun r => '\\' :: r) <$> unescapeString (c2 :: rest2) li
      | [] => (fun r => '\\' :: r) <$> unescapeString [] li
    else (fun r => c :: r) <$> unescapeString rest li

/-- Full match of the number regex `-?\d+(\.\d+)?([eE][+-]?\d+)?`
(`needsQuoting` uses it with the `i` flag, which is equivalent). -/
def isNumberLexeme (s : Chars) : Bool :=
  let s1 := match s with
    | '-' :: r => r
    | _ => s
  let ds := s1.takeWhile isDigit
  if ds.isEmpty then false
  else
    let r1 := s1.drop ds.length
    let r2 : Option Chars :=
      match r1 with
      | '.' :: r =>
        let fs := r.takeWhile isDigit
        if fs.isEmpty then none else some (r.drop fs.length)
      | _ => some r1
    match r2 with
    | none => false
    | some [] => true
    | some (e :: r3) =>
      if e == 'e' || e == 'E' then
        let r4 := match r3 with
          | c :: r => if c == '+' || c == '-' then r else r3
          | [] => r3
        let es := r4.takeWhile isDigit
        !es.isEmpty && (r4.drop es.length).isEmpty
      else false

/-- Prefix match of `/^0\d/`. -/
def startsLeadingZero (s : Chars) : Bool :=
  match s with
  | '0' :: d :: _ => isDigit d
  | _ => false

/-- Prefix match of `/^-?0\d/` (the decoder's leading-zero test). -/
def leadZeroSigned (s : Chars) : Bool :=
  match s with
  | '-' :: r => startsLeadingZero r
  | _ => startsLeadingZero s

/-- One character of the safe-string class
`[\w\s\u0080-￿]` (commas become safe when the delimiter is not a
comma).  Code points at or above `U+0080` are safe: in JavaScript the class
ranges over UTF-16 code units, so supplementary characters (two surrogates,
both in range) are safe as well. -/
def safeChar (delim : Char) (c : Char) : Bool :=
  isWordChar c || jsWhitespace c || 0x80 ≤ c.val ||
  (delim != ',' && c == ',')

/-- `needsQuoting(str, delimiter)`: the chain of early returns, as a
disjunction in source order. -/
def needsQuoting (s : Chars) (delim : Char) : Bool :=
  s.isEmpty ||
  (s = "true".data || s = "false".data || s = "null".data : Bool) ||
  isNumberLexeme s ||
  startsLeadingZero s ||
  (match s with
   | c :: _ => c == '[' || c == ']' || c == lbrace || c == rbrace
   | [] => false) ||
  containsChar s '[' || containsChar s lbrace ||
  (s = ['-'] : Bool) ||
  (match s with
   | '-' :: c :: _ => jsWhitespace c
   | _ => false) ||
  s.any (fun c => c == '\n' || c == '\r' || c == '\t' || c == '\\' || c == '"') ||
  (!s.isEmpty && s.all jsWhitespace) ||
  (s ≠ jsTrim s : Bool) ||
  !(!s.isEmpty && s.all (safeChar delim))

/-- `parseString(str, lineIndex?)`: strip one surrounding quote pair (when
both ends are quotes) and unescape the interior. -/
def parseString (s : Chars) (li : Option Nat) : Except Err Chars :=
  let t := jsTrim s
  if startsWithChar t '"' && endsWithChar t '"' then
    unescapeString (t.drop 1).dropLast li
  else .ok t

/-- Result of `parseKey`. -/
structure KeyResult where
  key : Chars
  rest : Chars
  wasQuoted : Bool
  deriving DecidableEq, Repr

/-- Scanner for a quoted key: escapes are kept (for `unescapeString` to
process), the closing quote ends the key; an unclosed quote yields `none`.
Invoked by `parseKey` after the opening quote. -/
def pkScan (acc : Chars) : Chars → Except Err (Option KeyResult)
  | [] => .ok none
  | '\\' :: r =>
    match r with
    | c2 :: r2 => pkScan (acc ++ ['\\', c2]) r2
    | [] => .ok none
  | '"' :: r => do
    let k ← unescapeString acc (some 0)
    .ok (some ⟨k, r, true⟩)
  | c :: r => pkScan (acc ++ [c]) r

/-- Lazy match of `/^([\w.-]+?)(\[.*|:\s*.*|$)/`: the shortest non-empty
prefix of key characters after which the remainder starts with `[` or `:`
or is empty. -/
def pkUnquotedGo (acc : Chars) : Chars → Option KeyResult
  | [] => if acc.isEmpty then none else some ⟨acc, [], false⟩
  | c :: r =>
    if !acc.isEmpty && (c == '[' || c == ':') then some ⟨acc, c :: r, false⟩
    else if isKeyChar c then pkUnquotedGo (acc ++ [c]) r
    else none

/-- `parseKey(str)`: quoted or unquoted key with trailing remainder;
`none` models the JavaScript `null` return. -/
def parseKey (s : Chars) : Except Err (Option KeyResult) :=
  let t := jsTrim s
  match t with
  | '"' :: r => pkScan [] r
  | _ => .ok (pkUnquotedGo [] t)

/-! ## Primitive codec (`parsePrimitive`) -/

/-- Exact value of `Number(lexeme)` for a lexeme matching the number regex
(modelled as a rational; IEEE-754 rounding is not applied). -/
def jsNumberOfLexeme (s : Chars) : ℚ :=
  let p : Bool × Chars :=
    match s with
    | '-' :: r => (true, r)
    | _ => (false, s)
  let ip := p.2.takeWhile isDigit
  let r1 := p.2.drop ip.length
  let fp : Chars :=
    match r1 with
    | '.' :: r => r.takeWhile isDigit
    | _ => []
  let r2 : Chars :=
    match r1 with
    | '.' :: r => r.drop (r.takeWhile isDigit).length
    | _ => r1
  let ev : Int :=
    match r2 with
    | e :: r3 =>
      if e == 'e' || e == 'E' then
        match r3 with
        | '-' :: ds => -(digitsVal (ds.takeWhile isDigit) : Int)
        | '+' :: ds => (digitsVal (ds.takeWhile isDigit) : Int)
        | ds => (digitsVal (ds.takeWhile isDigit) : Int)
      else 0
    | [] => 0
  let m : Nat := digitsVal (ip ++ fp)
  let eAdj : Int := ev - (fp.length : Int)
  let q : ℚ :=
    if 0 ≤ eAdj then mkRat ((m : Int) * ((10 : Int) ^ eAdj.toNat)) 1
    else mkRat (m : Int) ((10 : Nat) ^ (-eAdj).toNat)
  let q2 : ℚ := if p.1 then -q else q
  if p.1 && m == 0 then 0 else q2

/-- `parsePrimitive(str, lineIndex)`. -/
def parsePrimitive (s : Chars) (lineIndex : Nat) : Except Err ToonValue :=
  let t := jsTrim s
  if startsWithChar t '"' then
    if !endsWithChar t '"' || t.length < 2 then
      .error ⟨"Unterminated string", some (lineIndex + 1)⟩
    else (fun r => ToonValue.str r) <$> parseString t (some lineIndex)
  else if t = "true".data then .ok (.bool true)
  else if t = "false".data then .ok (.bool false)
  else if t = "null".data then .ok .null
  else if isNumberLexeme t then
    if leadZeroSigned t then .ok (.str t)
    else .ok (.num (jsNumberOfLexeme t))
  else .ok (.str t)

/-! ## Decoder helpers (`src/core/decoder.ts`) -/

/-- Distinguished error for exhausted model fuel; `decode` supplies enough
fuel that faithful runs never produce it. -/
def fuelErr : Err := ⟨"model fuel exhausted", none⟩

/-- JavaScript `indentLevel % indent !== 0` (`none`-like `NaN` arises for
`indent = 0`; the remainder takes the sign of the non-negative dividend). -/
def jsModNeq0 (level : Nat) (indent : Int) : Bool :=
  if indent = 0 then true
  else decide (level % indent.natAbs ≠ 0)

/-- The message `validateIndentation` raises for one offending line, if
any (tab check first, then the multiple-of-indent check). -/
def lineIndentMsg (line : Chars) (indent : Int) : Option String :=
  let lw := line.takeWhile jsWhitespace
  if containsChar lw '\t' then
    some "Tab characters not allowed in indentation in strict mode"
  else if 0 < lw.length ∧ jsModNeq0 lw.length indent then
    some ("Invalid indentation: expected multiple of " ++ toString indent ++
      ", got " ++ toString lw.length)
  else none

/-- Scanner of `validateIndentation`, carrying the 0-based index. -/
def viGo (indent : Int) : List Chars → Nat → Except Err Unit
  | [], _ => .ok ()
  | l :: rest, i =>
    if jsTrim l = [] then viGo indent rest (i + 1)
    else
      match lineIndentMsg l indent with
      | some m => .error ⟨m, some (i + 1)⟩
      | none => viGo indent rest (i + 1)

/-- `validateIndentation(lines, indent)` (strict mode only). -/
def validateIndentation (lines : List Chars) (indent : Int) : Except Err Unit :=
  viGo indent lines 0

/-- Regex `/^[a-zA-Z_]\w*$/` for one dotted-path part. -/
def identPart (p : Chars) : Bool :=
  match p with
  | c :: r => (isAlpha c || c == '_') && r.all isWordChar
  | [] => false

/-- `shouldExpandKey(key, wasQuoted, options)`. -/
def shouldExpandKey (key : Chars) (wasQuoted : Bool) (options : Opts) : Bool :=
  if options.expandPaths ≠ ExpandMode.safe then false
  else if wasQuoted then false
  else if !containsChar key '.' then false
  else (jsSplit key '.').all identPart

/-- The three-way type classifier used by `setNestedValue`
(`Array.isArray` / `typeof === 'object' && !== null` / primitive; note
that a JavaScript `null` classifies as primitive there). -/
def typeTag : ToonValue → Nat
  | .arr _ => 2
  | .obj _ => 1
  | _ => 0

/-- Names used in the conflict message. -/
def tagName : Nat → String
  | 2 => "array"
  | 1 => "object"
  | _ => "primitive"

/-- JavaScript object spread `{...a, ...b}`. -/
def spreadMerge (a b : List (Chars × ToonValue)) : List (Chars × ToonValue) :=
  b.foldl (fun acc kv => alSet acc kv.1 kv.2) a

/-- `setNestedValue(obj, parts, value, options)` with conflict detection.
Recursing into an existing `null` prefix models the JavaScript crash
(`typeof null === 'object'` passes the guard and the subsequent property
write throws a `TypeError`). -/
def setNestedValue (obj : List (Chars × ToonValue)) (parts : List Chars)
    (value : ToonValue) (options : Opts) : Except Err (List (Chars × ToonValue)) :=
  match parts with
  | [] => .ok obj
  | [k] =>
    match alGet obj k with
    | none => .ok (alSet obj k value)
    | some existing =>
      if typeTag existing ≠ typeTag value then
        if options.strict then
          .error ⟨"Path expansion conflict: cannot merge " ++
            tagName (typeTag value) ++ " with " ++ tagName (typeTag existing), some 0⟩
        else .ok (alSet obj k value)
      else
        match existing, value with
        | .obj eo, .obj vo =>
          .ok (alSet obj k (.obj (ToonFields.ofList (spreadMerge eo.toList vo.toList))))
        | _, _ => .ok (alSet obj k value)
  | first :: rest =>
    match alGet obj first with
    | none => do
      let sub ← setNestedValue [] rest value options
      .ok (alSet obj first (.obj (ToonFields.ofList sub)))
    | some (.obj eo) => do
      let sub ← setNestedValue eo.toList rest value options
      .ok (alSet obj first (.obj (ToonFields.ofList sub)))
    | some .null => .error ⟨"TypeError: Cannot read properties of null", none⟩
    | some _ =>
      if options.strict then
        .error ⟨"Path expansion conflict: cannot create nested object", some 0⟩
      else do
        let sub ← setNestedValue [] rest value options
        .ok (alSet obj first (.obj (ToonFields.ofList sub)))
termination_by structural parts

/-- The entry loop of `expandPaths`: process keys in insertion order. -/
def epGo (metadata : List (Chars × Bool)) (options : Opts) :
    List (Chars × ToonValue) → List (Chars × ToonValue) →
    Except Err (List (Chars × ToonValue))
  | [], res => .ok res
  | (k, v) :: rest, res =>
    let wq := (alGet metadata k).getD false
    if shouldExpandKey k wq options then do
      let res2 ← setNestedValue res (jsSplit k '.') v options
      epGo metadata options rest res2
    else epGo metadata options rest (alSet res k v)

/-- `expandPaths(obj, metadata, options)`. -/
def expandPathsFn (obj : List (Chars × ToonValue)) (metadata : List (Chars × Bool))
    (options : Opts) : Except Err (List (Chars × ToonValue)) :=
  epGo metadata options obj []

/-- `getIndentLevel(line)`. -/
def getIndentLevel (s : Chars) : Nat := (s.takeWhile jsWhitespace).length

/-- `detectDelimiter(bracketContent)`. -/
def detectDelimiter (bc : Chars) : Char :=
  if containsChar bc '\t' then '\t' else if containsChar bc '|' then '|' else ','

/-- Scanner of `splitByDelimiter` (fields flushed trimmed; quotes kept). -/
def sbdGo (delim : Char) : Chars → Chars → List Chars → Bool → Bool → List Chars
  | [], cur, acc, _, _ => acc ++ [jsTrim cur]
  | c :: rest, cur, acc, inQ, esc =>
    if esc then sbdGo delim rest (cur ++ [c]) acc inQ false
    else if c = '\\' then sbdGo delim rest (cur ++ [c]) acc inQ true
    else if c = '"' then sbdGo delim rest (cur ++ [c]) acc (!inQ) esc
    else if c = delim ∧ inQ = false then sbdGo delim rest [] (acc ++ [jsTrim cur]) inQ esc
    else sbdGo delim rest (cur ++ [c]) acc inQ esc

/-- `splitByDelimiter(str, delimiter)`. -/
def splitByDelimiter (s : Chars) (delim : Char) : List Chars :=
  sbdGo delim s [] [] false false

/-- The count from a bracket content: strip `\t` and `|`, then
`parseInt(·, 10)`. -/
def countOf (bc : Chars) : Option Int :=
  jsParseInt (bc.filter (fun c => !(c == '\t' || c == '|')))

/-- `n.toNat` iterations model `for (i = 0; i < count; i++)` (`NaN` runs
zero iterations). -/
def remOf : Option Int → Nat
  | none => 0
  | some n => n.toNat

/-- Match of `/^\[([^\]]+)\]:/` as a prefix, returning the bracket content
and the remainder after the colon. -/
def bracketColonMatch (r : Chars) : Option (Chars × Chars) :=
  match r with
  | '[' :: r1 =>
    let bc := r1.takeWhile (fun c => c != ']')
    if bc.isEmpty then none
    else
      match r1.drop bc.length with
      | ']' :: ':' :: r2 => some (bc, r2)
      | _ => none
  | _ => none

/-- Full match of `/^\[([^\]]+)\]:\s*$/`. -/
def bracketEmptyMatch (r : Chars) : Option Chars :=
  match bracketColonMatch r with
  | some (bc, r2) => if r2.all jsWhitespace then some bc else none
  | none => none

/-- Full match of `/^\[([^\]]+)\]\{fields\}:\s*$/`, returning bracket
content and field-list text. -/
def tabularHeaderMatch (r : Chars) : Option (Chars × Chars) :=
  match r with
  | '[' :: r1 =>
    let bc := r1.takeWhile (fun c => c != ']')
    if bc.isEmpty then none
    else
      match r1.drop bc.length with
      | ']' :: c :: r2 =>
        if c == lbrace then
          let ks := r2.takeWhile (fun x => x != rbrace)
          if ks.isEmpty then none
          else
            match r2.drop ks.length with
            | c2 :: ':' :: r3 =>
              if c2 == rbrace && r3.all jsWhitespace then some (bc, ks) else none
            | _ => none
        else none
      | _ => none
  | _ => none

/-- Full match of the root inline-array regex `/^\[([^\]]+)\]:\s*(.+)$/`:
`(.+)` must be non-empty, and when the tail is all whitespace the greedy
`\s*` backtracks one character so the capture is the last (whitespace)
character. -/
def rootInlineMatch (header : Chars) : Option (Chars × Chars) :=
  match bracketColonMatch header with
  | some (bc, r2) =>
    if r2.isEmpty then none
    else
      let v := r2.dropWhile jsWhitespace
      if v.isEmpty then
        match r2.getLast? with
        | some c => some (bc, [c])
        | none => none
      else some (bc, v)
  | none => none

/-- Deterministic scan of the quoted-key part `"([^"\\]|\\.)*"` after its
opening quote, returning the remainder after the closing quote. -/
def qkScan : Chars → Option Chars
  | [] => none
  | '\\' :: r =>
    match r with
    | _ :: r2 => qkScan r2
    | [] => none
  | '"' :: r => some r
  | _ :: r => qkScan r

/-- The key alternative `("([^"\\]|\\.)*"|W+)` of the line classifiers,
parameterized by the word class `W` (`[\w.-]` in `parseLines`, `\w` in
`parseListFormat`); returns the remainder after the key part. -/
def keyPartRegex (w : Char → Bool) (s : Chars) : Option Chars :=
  match s with
  | '"' :: r => qkScan r
  | _ =>
    let ds := s.takeWhile w
    if ds.isEmpty then none else some (s.drop ds.length)

/-- Classifier for an inline-array line:
`/^(key)\[[^\]]+\]:\s*\S+/`. -/
def fieldInlineTest (w : Char → Bool) (s : Chars) : Bool :=
  match keyPartRegex w s with
  | some r =>
    match bracketColonMatch r with
    | some (_, r2) => !(r2.dropWhile jsWhitespace).isEmpty
    | none => false
  | none => false

/-- Classifier for a tabular header line:
`/^(key)\[[^\]]+\]\{[^}]+\}:\s*$/`. -/
def fieldTabularTest (w : Char → Bool) (s : Chars) : Bool :=
  match keyPartRegex w s with
  | some r => (tabularHeaderMatch r).isSome
  | none => false

/-- Classifier for a multi-line array header:
`/^(key)\[[^\]]+\]:\s*$/`. -/
def fieldMultiTest (w : Char → Bool) (s : Chars) : Bool :=
  match keyPartRegex w s with
  | some r =>
    match bracketColonMatch r with
    | some (_, r2) => r2.all jsWhitespace
    | none => false
  | none => false

/-- The list-item bracket check `/^\[[^\]]+\]:/`. -/
def listItemBracketTest (s : Chars) : Bool :=
  (bracketColonMatch s).isSome

/-- Match of `/^:\s*(.*)$/` against a key remainder. -/
def colonRestMatch (rest : Chars) : Option Chars :=
  match rest with
  | ':' :: r => some (r.dropWhile jsWhitespace)
  | _ => none

/-- `content.startsWith('- ')`. -/
def listStartsDash (c : Chars) : Bool :=
  match c with
  | '-' :: ' ' :: _ => true
  | _ => false

/-- A list-item line: `- ...` or a bare `-`. -/
def listItemStart (c : Chars) : Bool :=
  listStartsDash c || c == ['-']

/-- Loop guard `result.length < count` against a JavaScript number
(`NaN` compares false). -/
def ltCount (len : Nat) : Option Int → Bool
  | none => false
  | some n => decide ((len : Int) < n)

/-- Result of `parseInlineArray`. -/
structure InlineResult where
  key : Chars
  values : List ToonValue
  delimiter : Char
  deriving DecidableEq, Repr

/-- `parseInlineArray(line, lineIndex)`.  Note the count-mismatch error is
raised with the raw (0-based) `lineIndex`, and is skipped entirely when the
declared count is `0`. -/
def parseInlineArray (line : Chars) (lineIndex : Nat) : Except Err InlineResult := do
  let kr ← parseKey line
  match kr with
  | none => .error ⟨"Invalid array key", some lineIndex⟩
  | some k =>
    match bracketColonMatch k.rest with
    | none => .error ⟨"Invalid inline array format", some lineIndex⟩
    | some (bc, tail) =>
      let valueStr := tail.dropWhile jsWhitespace
      let delim := detectDelimiter bc
      let countO := countOf bc
      if countO = some 0 then .ok ⟨k.key, [], delim⟩
      else
        let values := splitByDelimiter valueStr delim
        if ¬(some (values.length : Int) = countO) then
          .error ⟨"Array count mismatch: expected " ++ intOptRepr countO ++
            ", got " ++ toString values.length, some lineIndex⟩
        else do
          let parsed ← values.mapM (fun v => parsePrimitive v lineIndex)
          .ok ⟨k.key, parsed, delim⟩

/-- `parseRow(line, _expectedCount, delimiter)`. -/
def parseRow (line : Chars) (delim : Char) : List Chars :=
  splitByDelimiter (jsTrim line) delim

/-- The blank-line skipper inside `parseTabular`'s row loop (`rowNum` is
the loop variable `i`; in strict mode a blank between rows, with at least
one row read, throws). -/
def tabSkipBlanks (lines : List Chars) (strict : Bool) (rowNum : Nat) :
    Nat → Nat → Except Err Nat
  | _, 0 => .error fuelErr
  | i, fuel + 1 =>
    if i < lines.length ∧ jsTrim (lines.getD i []) = [] then
      if strict ∧ 0 < rowNum then
        .error ⟨"Blank lines not allowed inside arrays in strict mode", some (i + 1)⟩
      else tabSkipBlanks lines strict rowNum (i + 1) fuel
    else .ok i

/-- Build one tabular row object: `obj[keys[j]] = parsePrimitive(values[j])`. -/
def buildRowObj (li : Nat) : List Chars → List Chars →
    List (Chars × ToonValue) → Except Err (List (Chars × ToonValue))
  | [], _, acc => .ok acc
  | _ :: _, [], acc => .ok acc
  | k :: ks, v :: vs, acc => do
    let p ← parsePrimitive v li
    buildRowObj li ks vs (alSet acc k p)

/-- The row loop of `parseTabular` (with blank skipping). -/
def parseTabularRows (lines : List Chars) (options : Opts) (keys : List Chars)
    (delim : Char) (countO : Option Int) :
    Nat → Nat → Nat → List ToonValue → Except Err (List ToonValue × Nat)
  | 0, _, i, acc => .ok (acc, i)
  | rem + 1, rowNum, i, acc => do
    let i2 ← tabSkipBlanks lines options.strict rowNum i (lines.length + 1)
    if i2 ≥ lines.length then
      .error ⟨"Expected " ++ intOptRepr countO ++ " rows, got " ++
        toString rowNum, some i2⟩
    else
      let line := lines.getD i2 []
      let values := parseRow line delim
      if values.length ≠ keys.length then
        .error ⟨"Row has " ++ toString values.length ++ " values, expected " ++
          toString keys.length, some i2⟩
      else do
        let obj ← buildRowObj i2 keys values []
        parseTabularRows lines options keys delim countO rem (rowNum + 1)
          (i2 + 1) (acc ++ [.obj (.ofList obj)])

/-- A parse result: value plus `linesConsumed`. -/
structure PR where
  value : ToonValue
  linesConsumed : Nat
  deriving Repr

/-- `parseTabular(header, lines, startIndex, options)`.  Reads exactly `N`
rows; it performs no extra-row check after them. -/
def parseTabular (header : Chars) (lines : List Chars) (startIndex : Nat)
    (options : Opts) : Except Err PR := do
  let kr ← parseKey header
  match kr with
  | none => .error ⟨"Invalid tabular array key", some startIndex⟩
  | some k =>
    match tabularHeaderMatch k.rest with
    | none => .error ⟨"Invalid tabular array header", some startIndex⟩
    | some (bc, keysStr) =>
      let delim := detectDelimiter bc
      let countO := countOf bc
      let keys ← (splitByDelimiter keysStr delim).mapM (fun kk => parseString kk none)
      let r ← parseTabularRows lines options keys delim countO (remOf countO) 0
        (startIndex + 1) []
      if ¬(some (r.1.length : Int) = countO) then
        .error ⟨"Tabular array length mismatch: expected " ++ intOptRepr countO ++
          " rows, got " ++ toString r.1.length, some startIndex⟩
      else .ok ⟨.arr (.ofList r.1), r.2 - startIndex⟩

/-- The row loop of the root tabular branch (no blank skipping there). -/
def rootTabRows (lines : List Chars) (keys : List Chars) (delim : Char)
    (countO : Option Int) :
    Nat → Nat → Nat → List ToonValue → Except Err (List ToonValue × Nat)
  | 0, _, i, acc => .ok (acc, i)
  | rem + 1, rowNum, i, acc =>
    if i ≥ lines.length then
      .error ⟨"Expected " ++ intOptRepr countO ++ " rows, got " ++
        toString rowNum, some i⟩
    else
      let line := lines.getD i []
      let values := parseRow line delim
      if values.length ≠ keys.length then
        .error ⟨"Row has " ++ toString values.length ++ " values, expected " ++
          toString keys.length, some i⟩
      else do
        let obj ← buildRowObj i keys values []
        rootTabRows lines keys delim countO rem (rowNum + 1) (i + 1)
          (acc ++ [.obj (.ofList obj)])

/-- The trailing primitive-element loop shared by the multi-line array
branches (reads values while `result.length < count`, stopping at a
shallower indent; strict mode rejects interior blank lines). -/
def primArrLoop (lines : List Chars) (options : Opts) (countO : Option Int)
    (baseIndent : Nat) : Nat → Nat → List ToonValue →
    Except Err (List ToonValue × Nat)
  | 0, _, _ => .error fuelErr
  | fuel + 1, i, acc =>
    if ltCount acc.length countO ∧ i < lines.length then
      let line := lines.getD i []
      if jsTrim line = [] then
        if options.strict ∧ 0 < acc.length ∧ ltCount acc.length countO then
          .error ⟨"Blank lines not allowed inside arrays in strict mode", some (i + 1)⟩
        else primArrLoop lines options countO baseIndent fuel (i + 1) acc
      else if getIndentLevel line < baseIndent then .ok (acc, i)
      else do
        let v ← parsePrimitive line i
        primArrLoop lines options countO baseIndent fuel (i + 1) (acc ++ [v])
    else .ok (acc, i)

/-- A `parseLines` result: the value (`null` marks an empty object
context), lines consumed, and the per-key `wasQuoted` side table. -/
structure PLR where
  value : ToonValue
  linesConsumed : Nat
  keyMetadata : List (Chars × Bool)
  deriving Repr

/-- Find the base indentation: the indent of the first non-blank line at
or after the start index. -/
def findBaseGo : List Chars → Option Nat
  | [] => none
  | l :: r => if jsTrim l = [] then findBaseGo r else some (getIndentLevel l)

/-- Base indentation for `parseLines`. -/
def findBase (lines : List Chars) (s : Nat) : Option Nat :=
  findBaseGo (lines.drop s)

mutual

/-- `parseRootArray(header, lines, startIndex, options)`: inline, tabular
or multi-line root array.  Only the tabular branch checks for extra rows
past the declared count (and only when they are indented). -/
def parseRootArray : Nat → Chars → List Chars → Nat → Opts → Except Err PR
  | 0, _, _, _, _ => .error fuelErr
  | fuel + 1, header, lines, startIndex, options =>
    match rootInlineMatch header with
    | some (bc, valueStr) =>
      let delim := detectDelimiter bc
      let countO := countOf bc
      if countO = some 0 then .ok ⟨.arr .nil, 1⟩
      else
        let values := splitByDelimiter valueStr delim
        if ¬(some (values.length : Int) = countO) then
          .error ⟨"Array count mismatch: expected " ++ intOptRepr countO ++
            ", got " ++ toString values.length, some startIndex⟩
        else do
          let vs ← values.mapM (fun v => parsePrimitive v startIndex)
          .ok ⟨.arr (.ofList vs), 1⟩
    | none =>
    match tabularHeaderMatch header with
    | some (bc, keysStr) => do
      let delim := detectDelimiter bc
      let countO := countOf bc
      let keys ← (splitByDelimiter keysStr delim).mapM (fun kk => parseString kk none)
      let r ← rootTabRows lines keys delim countO (remOf countO) 0 (startIndex + 1) []
      if r.2 < lines.length then
        let nextLine := lines.getD r.2 []
        if jsTrim nextLine ≠ [] ∧ 0 < getIndentLevel nextLine then
          .error ⟨"Tabular array has more rows than declared count " ++
            intOptRepr countO, some r.2⟩
        else .ok ⟨.arr (.ofList r.1), r.2 - startIndex⟩
      else .ok ⟨.arr (.ofList r.1), r.2 - startIndex⟩
    | none =>
    match bracketEmptyMatch header with
    | some bc =>
      let countO := countOf bc
      if countO = some 0 then .ok ⟨.arr .nil, 1⟩
      else if startIndex + 1 < lines.length then
        let nextLine := lines.getD (startIndex + 1) []
        if listItemStart (jsTrim nextLine) then
          parseListFormat fuel lines (startIndex + 1) countO
            (getIndentLevel nextLine) options
        else do
          let r ← primArrLoop lines options countO (getIndentLevel nextLine)
            (lines.length + 1) (startIndex + 1) []
          .ok ⟨.arr (.ofList r.1), r.2 - startIndex⟩
      else .error ⟨"TypeError: Cannot read properties of undefined", none⟩
    | none => .error ⟨"Invalid root array format", some startIndex⟩
termination_by structural fuel a b c d => fuel

/-- `parseArray(header, lines, startIndex, options)`: a keyed array
header inside an object context. -/
def parseArray : Nat → Chars → List Chars → Nat → Opts → Except Err PR
  | 0, _, _, _, _ => .error fuelErr
  | fuel + 1, header, lines, startIndex, options =>
    if containsChar header lbrace then parseTabular header lines startIndex options
    else do
      let kr ← parseKey header
      match kr with
      | none => .error ⟨"Invalid array header", some startIndex⟩
      | some k =>
        match bracketEmptyMatch k.rest with
        | none => .error ⟨"Invalid array header format", some startIndex⟩
        | some bc =>
          let countO := countOf bc
          if countO = some 0 then .ok ⟨.arr .nil, 1⟩
          else if startIndex + 1 < lines.length then
            let nextLine := lines.getD (startIndex + 1) []
            if listItemStart (jsTrim nextLine) then
              parseListFormat fuel lines (startIndex + 1) countO
                (getIndentLevel nextLine) options
            else do
              let r ← primArrLoop lines options countO (getIndentLevel nextLine)
                (lines.length + 1) (startIndex + 1) []
              .ok ⟨.arr (.ofList r.1), r.2 - startIndex⟩
          else .error ⟨"TypeError: Cannot read properties of undefined", none⟩
termination_by structural fuel a b c d => fuel

/-- `parseListFormat(lines, startIndex, count, baseIndent, options)`:
reads items while fewer than `N` have been seen; extra items past `N` are
not examined. -/
def parseListFormat : Nat → List Chars → Nat → Option Int → Nat → Opts →
    Except Err PR
  | 0, _, _, _, _, _ => .error fuelErr
  | fuel + 1, lines, startIndex, countO, baseIndent, options => do
    let r ← plfLoop fuel lines options countO baseIndent startIndex []
    if ¬(some (r.1.length : Int) = countO) then
      .error ⟨"Array length mismatch: expected " ++ intOptRepr countO ++
        ", got " ++ toString r.1.length, some startIndex⟩
    else .ok ⟨.arr (.ofList r.1), r.2 - startIndex⟩
termination_by structural fuel a b c d e => fuel

/-- The item loop of `parseListFormat`. -/
def plfLoop : Nat → List Chars → Opts → Option Int → Nat → Nat →
    List ToonValue → Except Err (List ToonValue × Nat)
  | 0, _, _, _, _, _, _ => .error fuelErr
  | fuel + 1, lines, options, countO, baseIndent, i, acc =>
    if ltCount acc.length countO ∧ i < lines.length then
      let line := lines.getD i []
      if jsTrim line = [] then
        if options.strict ∧ 0 < acc.length ∧ ltCount acc.length countO then
          .error ⟨"Blank lines not allowed inside arrays in strict mode", some (i + 1)⟩
        else plfLoop fuel lines options countO baseIndent (i + 1) acc
      else
        let indent := getIndentLevel line
        let content := jsTrim line
        if indent = baseIndent ∧ listStartsDash content then
          let itemContent := jsTrim (content.drop 2)
          if itemContent = [] then
            plfLoop fuel lines options countO baseIndent (i + 1) (acc ++ [.obj .nil])
          else if listItemBracketTest itemContent then do
            let p ← parseRootArray fuel itemContent lines i options
            plfLoop fuel lines options countO baseIndent (i + p.linesConsumed)
              (acc ++ [p.value])
          else if containsChar itemContent ':' then do
            let r ← plfObjectItem fuel lines options baseIndent i itemContent
            plfLoop fuel lines options countO baseIndent r.2
              (acc ++ [.obj (.ofList r.1)])
          else do
            let v ← parsePrimitive itemContent i
            plfLoop fuel lines options countO baseIndent (i + 1) (acc ++ [v])
        else if indent = baseIndent ∧ content = ['-'] then
          plfLoop fuel lines options countO baseIndent (i + 1) (acc ++ [.obj .nil])
        else plfLoop fuel lines options countO baseIndent (i + 1) acc
    else .ok (acc, i)
termination_by structural fuel a b c d e f => fuel

/-- An object list item: the first field sits on the `- ` line itself
(classified with word class `\w`), further fields at deeper indents. -/
def plfObjectItem : Nat → List Chars → Opts → Nat → Nat → Chars →
    Except Err (List (Chars × ToonValue) × Nat)
  | 0, _, _, _, _, _ => .error fuelErr
  | fuel + 1, lines, options, baseIndent, i, itemContent =>
    if fieldInlineTest isWordChar itemContent then do
      let p ← parseInlineArray itemContent i
      plfObjFields fuel lines options baseIndent (i + 1)
        [(p.key, .arr (.ofList p.values))]
    else if fieldTabularTest isWordChar itemContent then do
      let kr ← parseKey itemContent
      match kr with
      | some k => do
        let p ← parseTabular itemContent lines i options
        plfObjFields fuel lines options baseIndent (i + p.linesConsumed)
          [(k.key, p.value)]
      | none => plfObjFields fuel lines options baseIndent (i + 1) []
    else if fieldMultiTest isWordChar itemContent then do
      let kr ← parseKey itemContent
      match kr with
      | some k => do
        let p ← parseArray fuel itemContent lines i options
        plfObjFields fuel lines options baseIndent (i + p.linesConsumed)
          [(k.key, p.value)]
      | none => plfObjFields fuel lines options baseIndent (i + 1) []
    else do
      let kr ← parseKey itemContent
      match kr with
      | some k =>
        match colonRestMatch k.rest with
        | some v0 =>
          let vs := jsTrim v0
          if vs = [] then do
            let nested ← parseLines fuel lines (i + 1) options
            plfObjFields fuel lines options baseIndent
              (i + 1 + nested.linesConsumed) [(k.key, nested.value)]
          else do
            let v ← parsePrimitive vs i
            plfObjFields fuel lines options baseIndent (i + 1) [(k.key, v)]
        | none => plfObjFields fuel lines options baseIndent (i + 1) []
      | none => plfObjFields fuel lines options baseIndent (i + 1) []
termination_by structural fuel a b c d e => fuel

/-- The additional-fields loop of an object list item (fields at deeper
indents; classification failures end the item here rather than skipping). -/
def plfObjFields : Nat → List Chars → Opts → Nat → Nat →
    List (Chars × ToonValue) → Except Err (List (Chars × ToonValue) × Nat)
  | 0, _, _, _, _, _ => .error fuelErr
  | fuel + 1, lines, options, baseIndent, i, obj =>
    if i < lines.length then
      let nextLine := lines.getD i []
      if jsTrim nextLine = [] then
        plfObjFields fuel lines options baseIndent (i + 1) obj
      else if getIndentLevel nextLine ≤ baseIndent then .ok (obj, i)
      else
        let c := jsTrim nextLine
        if fieldInlineTest isWordChar c then do
          let p ← parseInlineArray c i
          plfObjFields fuel lines options baseIndent (i + 1)
            (alSet obj p.key (.arr (.ofList p.values)))
        else if fieldTabularTest isWordChar c then do
          let kr ← parseKey c
          match kr with
          | some k => do
            let p ← parseTabular c lines i options
            plfObjFields fuel lines options baseIndent (i + p.linesConsumed)
              (alSet obj k.key p.value)
          | none => .ok (obj, i)
        else if fieldMultiTest isWordChar c then do
          let kr ← parseKey c
          match kr with
          | some k => do
            let p ← parseArray fuel c lines i options
            plfObjFields fuel lines options baseIndent (i + p.linesConsumed)
              (alSet obj k.key p.value)
          | none => .ok (obj, i)
        else do
          let kr ← parseKey c
          match kr with
          | none => .ok (obj, i)
          | some k =>
            match colonRestMatch k.rest with
            | none => .ok (obj, i)
            | some v0 =>
              let vs := jsTrim v0
              if vs = [] then do
                let nested ← parseLines fuel lines (i + 1) options
                plfObjFields fuel lines options baseIndent
                  (i + 1 + nested.linesConsumed) (alSet obj k.key nested.value)
              else do
                let v ← parsePrimitive vs i
                plfObjFields fuel lines options baseIndent (i + 1)
                  (alSet obj k.key v)
    else .ok (obj, i)
termination_by structural fuel a b c d e => fuel

/-- `parseLines(lines, startIndex, options)`: the object context.  The
base indent is inferred from the first non-blank line at or after the
start (no deeper-indent requirement is imposed on nested calls). -/
def parseLines : Nat → List Chars → Nat → Opts → Except Err PLR
  | 0, _, _, _ => .error fuelErr
  | fuel + 1, lines, startIndex, options =>
    match findBase lines startIndex with
    | none => .ok ⟨.null, 0, []⟩
    | some baseIndent => do
      let r ← plLoop fuel lines options startIndex baseIndent startIndex [] []
      if r.1.isEmpty then .ok ⟨.null, r.2.2 - startIndex, []⟩
      else .ok ⟨.obj (.ofList r.1), r.2.2 - startIndex, r.2.1⟩
termination_by structural fuel a b c => fuel

/-- The line loop of `parseLines`: classify each line at the base indent
(inline array, tabular header, multi-line array header, `key: value`). -/
def plLoop : Nat → List Chars → Opts → Nat → Nat → Nat →
    List (Chars × ToonValue) → List (Chars × Bool) →
    Except Err (List (Chars × ToonValue) × (List (Chars × Bool) × Nat))
  | 0, _, _, _, _, _, _, _ => .error fuelErr
  | fuel + 1, lines, options, startIndex, baseIndent, i, result, meta =>
    if i < lines.length then
      let line := lines.getD i []
      if jsTrim line = [] then
        plLoop fuel lines options startIndex baseIndent (i + 1) result meta
      else
        let indent := getIndentLevel line
        if indent < baseIndent ∧ startIndex < i then .ok (result, meta, i)
        else if indent ≠ baseIndent then
          plLoop fuel lines options startIndex baseIndent (i + 1) result meta
        else
          let content := jsTrim line
          if fieldInlineTest isKeyChar content then do
            let p ← parseInlineArray content i
            let kr ← parseKey content
            let meta2 := match kr with
              | some k => alSet meta p.key k.wasQuoted
              | none => meta
            plLoop fuel lines options startIndex baseIndent (i + 1)
              (alSet result p.key (.arr (.ofList p.values))) meta2
          else if fieldTabularTest isKeyChar content then do
            let p ← parseTabular content lines i options
            let kr ← parseKey content
            match kr with
            | some k =>
              plLoop fuel lines options startIndex baseIndent
                (i + p.linesConsumed) (alSet result k.key p.value)
                (alSet meta k.key k.wasQuoted)
            | none =>
              plLoop fuel lines options startIndex baseIndent
                (i + p.linesConsumed) result meta
          else if fieldMultiTest isKeyChar content then do
            let p ← parseArray fuel content lines i options
            let kr ← parseKey content
            match kr with
            | some k =>
              plLoop fuel lines options startIndex baseIndent
                (i + p.linesConsumed) (alSet result k.key p.value)
                (alSet meta k.key k.wasQuoted)
            | none =>
              plLoop fuel lines options startIndex baseIndent
                (i + p.linesConsumed) result meta
          else if containsChar content ':' then do
            let kr ← parseKey content
            match kr with
            | none =>
              plLoop fuel lines options startIndex baseIndent (i + 1) result meta
            | some k =>
              match colonRestMatch k.rest with
              | none =>
                .error ⟨"Missing colon in key-value context", some (i + 1)⟩
              | some v0 =>
                let vs := jsTrim v0
                let meta2 := alSet meta k.key k.wasQuoted
                if vs = [] then do
                  let nested ← parseLines fuel lines (i + 1) options
                  let nv := if nested.value = ToonValue.null then
                    ToonValue.obj .nil else nested.value
                  plLoop fuel lines options startIndex baseIndent
                    (i + 1 + nested.linesConsumed) (alSet result k.key nv) meta2
                else do
                  let v ← parsePrimitive vs i
                  plLoop fuel lines options startIndex baseIndent (i + 1)
                    (alSet result k.key v) meta2
          else if options.strict ∧ startIndex < i then
            .error ⟨"Missing colon in key-value context", some (i + 1)⟩
          else
            plLoop fuel lines options startIndex baseIndent (i + 1) result meta
    else .ok (result, meta, i)
termination_by structural fuel a b c d e f g => fuel

end

/-- Fuel supplied by `decode`: more than any run over the line array can
consume. -/
def decodeFuel (lines : List Chars) : Nat :=
  (lines.length + 2) * (lines.length + 2) + 16

/-- `decode(toon, options)`: the public entry point. -/
def decode (toon : Chars) (options : OptsIn) : Except Err ToonValue := do
  let opts := normOpts options
  if jsTrim toon = [] then .ok (.obj .nil)
  else
    let lines := jsSplit toon '\n'
    let _ ← (if opts.strict then validateIndentation lines opts.indent
             else .ok ())
    let nonEmptyLines := lines.filter (fun l => !(jsTrim l).isEmpty)
    let rootPrim : Except Err (Option ToonValue) :=
      if nonEmptyLines.length = 1 then
        let raw := nonEmptyLines.getD 0 []
        let line := jsTrim raw
        if startsWithChar line '"' ∧ endsWithChar line '"' ∧ 1 < line.length then do
          let kr ← parseKey line
          match kr with
          | none => (fun v => some v) <$> parsePrimitive raw 0
          | some k =>
            if !startsWithChar (jsTrim k.rest) ':' then
              (fun v => some v) <$> parsePrimitive raw 0
            else if !containsChar line ':' then
              (fun v => some v) <$> parsePrimitive raw 0
            else .ok none
        else if !containsChar line ':' then
          (fun v => some v) <$> parsePrimitive raw 0
        else .ok none
      else .ok none
    let rp ← rootPrim
    match rp with
    | some v => .ok v
    | none =>
      if opts.strict ∧ 1 < nonEmptyLines.length ∧
          nonEmptyLines.all (fun l => !containsChar l ':' && !startsWithChar l '[') then
        .error ⟨"Multiple primitives at root not allowed in strict mode", some 1⟩
      else
        let firstLine := nonEmptyLines.getD 0 []
        if startsWithChar (jsTrim firstLine) '[' then do
          let p ← parseRootArray (decodeFuel lines) (jsTrim firstLine) lines 0 opts
          .ok p.value
        else do
          let r ← parseLines (decodeFuel lines) lines 0 opts
          match r.value, opts.expandPaths with
          | .obj fs, .safe => do
            let res ← expandPathsFn fs.toList r.keyMetadata opts
            .ok (.obj (.ofList res))
          | v, _ => .ok v

/-! ## Spec-side definitions for refinement claims -/

/-- Definition following claim C2's (amended) wording for `parsePrimitive`:
a lexeme beginning with a double quote must also end with one and have
length at least 2 (otherwise a decode error), with its interior unescaped
and returned as a string; the lexemes `true`, `false`, `null` give the
corresponding constants; an optionally-signed decimal number lexeme
without a disallowed leading zero — where the exclusion also covers a
minus sign followed by `0` and a digit — parses as a number with negative
zero normalized to zero; a number lexeme with a disallowed leading zero,
and every other lexeme, is returned verbatim as a string. -/
def primitiveSpec (s : Chars) (lineIndex : Nat) : Except Err ToonValue :=
  let lexeme := jsTrim s
  if startsWithChar lexeme '"' then
    if endsWithChar lexeme '"' ∧ 2 ≤ lexeme.length then
      (fun r => ToonValue.str r) <$> parseString lexeme (some lineIndex)
    else .error ⟨"Unterminated string", some (lineIndex + 1)⟩
  else if lexeme = "true".data then .ok (.bool true)
  else if lexeme = "false".data then .ok (.bool false)
  else if lexeme = "null".data then .ok .null
  else if isNumberLexeme lexeme then
    if leadZeroSigned lexeme then .ok (.str lexeme)
    else .ok (.num (jsNumberOfLexeme lexeme))
  else .ok (.str lexeme)

/-- Net per-character effect of `escapeString`'s five replacements. -/
def escMap (c : Char) : Chars :=
  if c = '\\' then ['\\', '\\']
  else if c = '"' then ['\\', '"']
  else if c = '\n' then ['\\', 'n']
  else if c = '\r' then ['\\', 'r']
  else if c = '\t' then ['\\', 't']
  else [c]

/-! ## Helper lemmas -/

/-- One replacement over a cons. -/
theorem escRepl_cons (tc : Char) (r : Chars) (c : Char) (l : Chars) :
    escRepl tc r (c :: l) = (if c == tc then r else [c]) ++ escRepl tc r l := by
  simp [escRepl]

/-- One replacement over an append. -/
theorem escRepl_append (tc : Char) (r : Chars) (a b : Chars) :
    escRepl tc r (a ++ b) = escRepl tc r a ++ escRepl tc r b := by
  simp [escRepl]

/-- One replacement over a singleton. -/
theorem escRepl_singleton (tc : Char) (r : Chars) (c : Char) :
    escRepl tc r [c] = if c == tc then r else [c] := by
  simp [escRepl]

/-- The five replacements act per character. -/
theorem escapeString_cons (c : Char) (t : Chars) :
    escapeString (c :: t) = escMap c ++ escapeString t := by
  unfold escapeString
  rw [escRepl_cons, escRepl_append, escRepl_append, escRepl_append, escRepl_append]
  congr 1
  by_cases h1 : c = '\\'
  · subst h1; rfl
  by_cases h2 : c = '"'
  · subst h2; rfl
  by_cases h3 : c = '\n'
  · subst h3; rfl
  by_cases h4 : c = '\r'
  · subst h4; rfl
  by_cases h5 : c = '\t'
  · subst h5; rfl
  simp [escRepl_singleton, escMap, h1, h2, h3, h4, h5]

/-- The unescape scanner consumes one escaped character at a time. -/
theorem unescape_escMap (c : Char) (t : Chars) (li : Option Nat) :
    unescapeString (escMap c ++ t) li =
      (fun r => c :: r) <$> unescapeString t li := by
  by_cases h1 : c = '\\'
  · subst h1; simp [escMap, unescapeString]
  by_cases h2 : c = '"'
  · subst h2; simp [escMap, unescapeString]
  by_cases h3 : c = '\n'
  · subst h3; simp [escMap, unescapeString]
  by_cases h4 : c = '\r'
  · subst h4; simp [escMap, unescapeString]
  by_cases h5 : c = '\t'
  · subst h5; simp [escMap, unescapeString]
  rw [escMap, if_neg h1, if_neg h2, if_neg h3, if_neg h4, if_neg h5]
  rw [List.singleton_append, unescapeString.eq_def]
  simp [h1]

/-! ## Claim theorems -/

/-- C4: for every string `s` and optional line index, unescaping the
escaped form recovers `s` exactly: `unescapeString (escapeString s) = s`. -/
theorem C4_theorem (li : Option Nat) (s : Chars) :
    unescapeString (escapeString s) li = .ok s := by
  induction s with
  | nil => rfl
  | cons c t ih =>
    rw [escapeString_cons, unescape_escMap, ih]
    rfl

/-- C1 counterexample: decoding `xs[3]: 1,2` does fail citing expected 3
and got 2, but the error's line number is the raw 0-based index 0, not the
claimed 1-based line 1. -/
theorem C1_counterexample :
    decode "xs[3]: 1,2".data ⟨none, none, none⟩ =
      .error ⟨"Array count mismatch: expected 3, got 2", some 0⟩ ∧
    (Except.error (α := ToonValue)
        (Err.mk "Array count mismatch: expected 3, got 2" (some 0)) ≠
      Except.error ⟨"Array count mismatch: expected 3, got 2", some 1⟩) :=
  ⟨by decide, by decide⟩

/-- C2 counterexample: the lexeme `-007` matches the signed number pattern
and does not begin with `0` followed by a digit (the spec's definition of
a disallowed leading zero), yet `parsePrimitive` returns it as the string
`"-007"` rather than the number `-7`. -/
theorem C2_counterexample :
    parsePrimitive "-007".data 0 = .ok (.str "-007".data) ∧
    (Except.ok (ε := Err) (ToonValue.str "-007".data) ≠
      Except.ok (ToonValue.num (-7))) :=
  ⟨by decide, by decide⟩

/-- C3 counterexample: in the document `"a": 5` / `a.b: 1` decoded with
`expandPaths = safe`, the quoted key `"a"` is not left unchanged: the later
expansion of `a.b` overwrites its value 5 with the object `{b: 1}`. -/
theorem C3_counterexample :
    decode "\"a\": 5\na.b: 1".data ⟨none, none, some .safe⟩ =
      .ok (.obj (.cons "a".data (.obj (.cons "b".data (.num 1) .nil)) .nil)) ∧
    (ToonValue.obj (.cons "b".data (.num 1) .nil) ≠ ToonValue.num 5) :=
  ⟨by decide, by decide⟩

/-- C3 (amended): under `expandPaths = safe`, an unquoted dotted key whose
parts all match `[A-Za-z_]\w*` is expanded into nested objects with
object-valued prefixes shallow-merged (new keys winning), and
`shouldExpandKey` holds exactly for such keys; quoted or non-identifier
keys are copied through unchanged unless a later expanded key with a
conflicting prefix overwrites them (last-writer-wins when not strict).  In
particular `a.b.c: 1` / `a.b.d: 2` decodes to `{a: {b: {c: 1, d: 2}}}`
under safe expansion and to `{"a.b.c": 1, "a.b.d": 2}` by default. -/
theorem C3_amended :
    decode "a.b.c: 1\na.b.d: 2".data ⟨none, none, some .safe⟩ =
      .ok (.obj (.cons "a".data (.obj (.cons "b".data
        (.obj (.cons "c".data (.num 1) (.cons "d".data (.num 2) .nil))) .nil)) .nil)) ∧
    decode "a.b.c: 1\na.b.d: 2".data ⟨none, none, none⟩ =
      .ok (.obj (.cons "a.b.c".data (.num 1) (.cons "a.b.d".data (.num 2) .nil))) ∧
    (∀ (key : Chars) (wq : Bool) (opts : Opts),
      shouldExpandKey key wq opts = true ↔
        (opts.expandPaths = ExpandMode.safe ∧ wq = false ∧
         containsChar key '.' = true ∧ (jsSplit key '.').all identPart = true)) := by
  refine ⟨by decide, by decide, fun key wq opts => ?_⟩
  unfold shouldExpandKey
  by_cases hm : opts.expandPaths = ExpandMode.safe
  · by_cases hw : wq
    · simp [hm, hw]
    · by_cases hc : containsChar key '.'
      · simp [hm, hw, hc]
      · simp [hm, hw, hc]
  · simp [hm]

/-- C6 counterexample: the list-format array `xs[1]:` with two `- ` items
decodes successfully to `{xs: [1]}` — the extra item beyond the declared
count is silently ignored, not rejected. -/
theorem C6_counterexample :
    decode "xs[1]:\n  - 1\n  - 2".data ⟨none, none, none⟩ =
      .ok (.obj (.cons "xs".data (.arr (.cons (.num 1) .nil)) .nil)) := by decide

/-- C6 (amended): only a root-level tabular array rejects extra indented
rows past the declared count; a list-format array and a non-root tabular
array stop reading after `N` items and silently ignore later content at
the item indentation. -/
theorem C6_amended :
    decode "[1]\x7ba\x7d:\n  1\n  2".data ⟨none, none, none⟩ =
      .error ⟨"Tabular array has more rows than declared count 1", some 2⟩ ∧
    decode "xs[1]:\n  - 1\n  - 2".data ⟨none, none, none⟩ =
      .ok (.obj (.cons "xs".data (.arr (.cons (.num 1) .nil)) .nil)) ∧
    decode "xs[1]\x7ba\x7d:\n  1\n  2".data ⟨none, none, none⟩ =
      .ok (.obj (.cons "xs".data
        (.arr (.cons (.obj (.cons "a".data (.num 1) .nil)) .nil)) .nil)) :=
  ⟨by decide, by decide, by decide⟩

/-- C7 counterexample: with no line index supplied, `unescapeString` keeps
an invalid escape (`\x`) verbatim instead of rejecting it, and a trailing
backslash is kept even when a line index is supplied. -/
theorem C7_counterexample :
    unescapeString ['\\', 'x'] none = .ok ['\\', 'x'] ∧
    unescapeString ['\\'] (some 3) = .ok ['\\'] :=
  ⟨by decide, by decide⟩

/-- C9 counterexample: in `a:` followed by `b: 1` at the same indentation,
`b` becomes a field of `a`'s value (the nested parse infers its indent from
the next line), not a sibling of `a` as the claim states. -/
theorem C9_counterexample :
    decode "a:\nb: 1".data ⟨none, none, none⟩ =
      .ok (.obj (.cons "a".data (.obj (.cons "b".data (.num 1) .nil)) .nil)) ∧
    (Except.ok (ε := Err)
        (ToonValue.obj (.cons "a".data (.obj (.cons "b".data (.num 1) .nil)) .nil)) ≠
      Except.ok (ToonValue.obj (.cons "a".data (.obj .nil)
        (.cons "b".data (.num 1) .nil)))) :=
  ⟨by decide, by decide⟩

/-- C9 (amended): `key:` with an empty value recurses into `parseLines`
starting at the next line, with the nested indentation inferred from the
first following non-empty line rather than required to be deeper, and a
null (empty) result becomes `{}`; consequently a following line at the
same indentation becomes a field of the key's value, while a line at a
shallower indentation than the nested block ends it and becomes a sibling. -/
theorem C9_amended :
    decode "a:\nb: 1".data ⟨none, none, none⟩ =
      .ok (.obj (.cons "a".data (.obj (.cons "b".data (.num 1) .nil)) .nil)) ∧
    decode "a:".data ⟨none, none, none⟩ =
      .ok (.obj (.cons "a".data (.obj .nil) .nil)) ∧
    decode "a:\n  b: 1\nc: 2".data ⟨none, none, none⟩ =
      .ok (.obj (.cons "a".data (.obj (.cons "b".data (.num 1) .nil))
        (.cons "c".data (.num 2) .nil))) :=
  ⟨by decide, by decide, by decide⟩

/-- Bind of a successful `Except` computation. -/
theorem exc_bind_ok {α β : Type} (a : α) (f : α → Except Err β) :
    (Except.ok a >>= f) = f a := rfl

/-- The scanner of `validateIndentation` reports the first offending
non-blank line with its 1-based number (`k` is the index offset). -/
theorem viGoError (indent : Int) :
    ∀ (ls : List Chars) (i k : Nat) (l : Chars) (m : String),
      ls.get? i = some l → jsTrim l ≠ [] → lineIndentMsg l indent = some m →
      (∀ j lj, j < i → ls.get? j = some lj →
        jsTrim lj = [] ∨ lineIndentMsg lj indent = none) →
      viGo indent ls k = .error ⟨m, some (k + i + 1)⟩ := by
  intro ls
  induction ls with
  | nil => intro i k l m hget hne hmsg hb; simp [List.get?] at hget
  | cons hd tl ih =>
    intro i k l m hget hne hmsg hb
    cases i with
    | zero =>
      rw [List.get?] at hget
      injection hget with hh
      subst hh
      simp [viGo, hne, hmsg]
    | succ i2 =>
      have hh := hb 0 hd (Nat.succ_pos _) rfl
      have step : viGo indent (hd :: tl) k = viGo indent tl (k + 1) := by
        rcases hh with hb1 | hb2
        · simp [viGo, hb1]
        · by_cases hbl : jsTrim hd = []
          · simp [viGo, hbl]
          · simp [viGo, hbl, hb2]
      rw [step]
      rw [show k + (i2 + 1) + 1 = (k + 1) + i2 + 1 by omega]
      exact ih i2 (k + 1) l m hget hne hmsg
        (fun j lj hj hg => hb (j + 1) lj (Nat.succ_lt_succ hj) hg)

/-- C1 (amended): for every inline array line whose key and bracket header
parse and whose delimiter-separated value count differs from a non-zero
declared count, `parseInlineArray` fails with a count-mismatch error
citing both counts — but the error carries the raw 0-based line index, and
the check is skipped entirely when the declared count is 0. -/
theorem C1_amended (line : Chars) (idx : Nat) (k : KeyResult) (bc tail : Chars)
    (h1 : parseKey line = .ok (some k))
    (h2 : bracketColonMatch k.rest = some (bc, tail))
    (h3 : countOf bc ≠ some 0)
    (h4 : ¬(some (((splitByDelimiter (tail.dropWhile jsWhitespace)
        (detectDelimiter bc)).length : Int)) = countOf bc)) :
    parseInlineArray line idx =
      .error ⟨"Array count mismatch: expected " ++ intOptRepr (countOf bc) ++
        ", got " ++ toString (splitByDelimiter (tail.dropWhile jsWhitespace)
          (detectDelimiter bc)).length, some idx⟩ := by
  simp only [parseInlineArray]
  rw [h1, exc_bind_ok]
  simp only [h2]
  rw [if_neg h3, if_pos h4]

/-- C1 witness: the amended theorem applied to the line `xs[3]: 1,2` at
line index 41. -/
theorem C1_amended_witness :
    parseInlineArray "xs[3]: 1,2".data 41 =
      .error ⟨"Array count mismatch: expected 3, got 2", some 41⟩ := by
  have h := C1_amended "xs[3]: 1,2".data 41 ⟨"xs".data, "[3]: 1,2".data, false⟩
    "3".data " 1,2".data (by decide) (by decide) (by decide) (by decide)
  exact h.trans (by decide)

/-- C2 (amended): `parsePrimitive` coincides with the claim's cascade
(`primitiveSpec`) — quoted lexemes first (end-quote and length at least 2
required, else a decode error, with the interior unescaped), then the
keywords, then number lexemes with the leading-zero exclusion extended to
a minus sign followed by `0` and a digit, everything else verbatim — and
`-0`, `0`, `-0.0` all decode to the number `0`, while `007` stays a
string. -/
theorem C2_amended :
    (∀ (s : Chars) (li : Nat), parsePrimitive s li = primitiveSpec s li) ∧
    parsePrimitive "-0".data 0 = .ok (.num 0) ∧
    parsePrimitive "0".data 0 = .ok (.num 0) ∧
    parsePrimitive "-0.0".data 0 = .ok (.num 0) ∧
    parsePrimitive "007".data 0 = .ok (.str "007".data) := by
  refine ⟨fun s li => ?_, by decide, by decide, by decide, by decide⟩
  simp only [parsePrimitive, primitiveSpec]
  by_cases hq : startsWithChar (jsTrim s) '"'
  · simp only [hq, if_true]
    by_cases he : endsWithChar (jsTrim s) '"'
    · by_cases hl : (jsTrim s).length < 2
      · have hx : ¬(endsWithChar (jsTrim s) '"' = true ∧ 2 ≤ (jsTrim s).length) :=
          fun hc => absurd hc.2 (by omega)
        simp [he, hl, hx]
        rw [if_neg (Nat.not_le.mpr hl)]
      · have h2 : 2 ≤ (jsTrim s).length := Nat.not_lt.mp hl
        simp [he, hl, h2]
    · have hx : ¬(endsWithChar (jsTrim s) '"' = true ∧ 2 ≤ (jsTrim s).length) :=
        fun hc => he hc.1
      simp [he, hx]
  · simp [hq]

/-- C5: whenever `needsQuoting s d` is false and `s` is not a keyword and
not a number lexeme, `parsePrimitive` returns `s` itself as a string —
bare-string acceptance is symmetric with the quoting predicate. -/
theorem C5_theorem (s : Chars) (d : Char) (li : Nat)
    (h : needsQuoting s d = false)
    (h1 : s ≠ "true".data) (h2 : s ≠ "false".data) (h3 : s ≠ "null".data)
    (h4 : isNumberLexeme s = false) :
    parsePrimitive s li = .ok (.str s) := by
  simp only [needsQuoting, Bool.or_eq_false_iff] at h
  obtain ⟨⟨⟨⟨⟨⟨⟨⟨⟨⟨⟨⟨hemp, hkw⟩, hnum2⟩, hlz⟩, hm1⟩, hcb⟩, hclb⟩, hdash⟩, hdws⟩,
    hany⟩, hwso⟩, htr⟩, hsafe⟩ := h
  have htrim : jsTrim s = s := by
    have hx := of_decide_eq_false htr
    exact (not_ne_iff.mp hx).symm
  have hq : startsWithChar s '"' = false := by
    cases s with
    | nil => rfl
    | cons c0 r0 =>
      rw [List.any_cons, Bool.or_eq_false_iff] at hany
      rcases hany with ⟨hc0, _⟩
      simp only [Bool.or_eq_false_iff] at hc0
      simp only [startsWithChar]
      exact hc0.2
  simp only [parsePrimitive]
  rw [htrim]
  simp [hq, h1, h2, h3, h4]

/-- C5 witness: the theorem applied to the bare string `hello` with the
comma delimiter. -/
theorem C5_witness :
    needsQuoting "hello".data ',' = false ∧
    parsePrimitive "hello".data 7 = .ok (.str "hello".data) :=
  ⟨by decide, C5_theorem "hello".data ',' 7 (by decide) (by decide)
    (by decide) (by decide) (by decide)⟩

/-- C7 (amended): when a line index is supplied, a backslash followed by a
character other than `n`, `r`, `t`, `"`, `\` raises an invalid-escape
error whose message names the escape and the 1-based line; without a line
index the invalid escape is kept verbatim, and a backslash at the end of
the input is always kept (see the counterexample). -/
theorem C7_amended (c : Char) (rest : Chars) (li : Nat)
    (h1 : c ≠ 'n') (h2 : c ≠ 'r') (h3 : c ≠ 't') (h4 : c ≠ '"') (h5 : c ≠ '\\') :
    unescapeString ('\\' :: c :: rest) (some li) =
      .error ⟨"Invalid escape sequence: \\" ++ String.mk [c] ++ " at line " ++
        toString (li + 1), none⟩ := by
  rw [unescapeString.eq_def]
  simp [h1, h2, h3, h4, h5]

/-- C7 witness: the amended theorem applied to the input `\x` with line
index 0. -/
theorem C7_amended_witness :
    unescapeString ['\\', 'x'] (some 0) =
      .error ⟨"Invalid escape sequence: \\x at line 1", none⟩ := by
  have h := C7_amended 'x' [] 0 (by decide) (by decide) (by decide)
    (by decide) (by decide)
  exact h.trans (by decide)

/-- C8: in strict mode every non-empty line's leading whitespace is
validated before parsing — the first line with a tab in its indentation or
an indentation length that is not a multiple of the `indent` option makes
`validateIndentation` fail with that line's 1-based number — and the
document `  a: 1` / ` a: 2` with `strict` and `indent = 2` fails on
line 2. -/
theorem C8_theorem :
    (∀ (lines : List Chars) (indent : Int) (i : Nat) (l : Chars) (m : String),
      lines.get? i = some l → jsTrim l ≠ [] → lineIndentMsg l indent = some m →
      (∀ j lj, j < i → lines.get? j = some lj →
        jsTrim lj = [] ∨ lineIndentMsg lj indent = none) →
      validateIndentation lines indent = .error ⟨m, some (i + 1)⟩) ∧
    decode "  a: 1\n a: 2".data ⟨some true, some 2, none⟩ =
      .error ⟨"Invalid indentation: expected multiple of 2, got 1", some 2⟩ := by
  refine ⟨fun lines indent i l m hget hne hmsg hb => ?_, by decide⟩
  have h := viGoError indent lines i 0 l m hget hne hmsg hb
  simpa [validateIndentation] using h

/-- C8 witness: the universal part applied to the two concrete lines of
the scenario. -/
theorem C8_witness :
    validateIndentation ["  a: 1".data, " a: 2".data] 2 =
      .error ⟨"Invalid indentation: expected multiple of 2, got 1", some 2⟩ := by
  refine C8_theorem.1 ["  a: 1".data, " a: 2".data] 2 1 " a: 2".data
    "Invalid indentation: expected multiple of 2, got 1" (by decide) (by decide)
    (by decide) ?_
  intro j lj hj hg
  cases j with
  | zero =>
    right
    have hlj : lj = "  a: 1".data := by
      rw [List.get?] at hg
      injection hg with hh
      exact hh.symm
    rw [hlj]
    decide
  | succ n => exact absurd hj (by omega)

/-- C10: a lexeme matching the signed number pattern that begins with a
minus sign followed by `0` and another digit is returned verbatim as a
string by `parsePrimitive` — the code extends the spec's leading-zero rule
to negative leading-zero lexemes. -/
theorem C10_theorem (s : Chars) (li : Nat) (c : Char) (r : Chars)
    (hs : s = '-' :: '0' :: c :: r) (hd : isDigit c = true)
    (htrim : jsTrim s = s) (hnum : isNumberLexeme s = true) :
    parsePrimitive s li = .ok (.str s) := by
  subst hs
  simp only [parsePrimitive]
  rw [htrim]
  have e1 : "true".data = ['t', 'r', 'u', 'e'] := rfl
  have e2 : "false".data = ['f', 'a', 'l', 's', 'e'] := rfl
  have e3 : "null".data = ['n', 'u', 'l', 'l'] := rfl
  simp [startsWithChar, e1, e2, e3, hnum, leadZeroSigned, startsLeadingZero, hd]

/-- C10 witness: the theorem applied to the lexeme `-007`. -/
theorem C10_witness :
    isNumberLexeme "-007".data = true ∧
    parsePrimitive "-007".data 5 = .ok (.str "-007".data) :=
  ⟨by decide, C10_theorem "-007".data 5 '0' ['7'] (by decide) (by decide)
    (by decide) (by decide)⟩

end Tooner
